import Mathlib

/-!
Shallow embedding of the core pipeline of `app.py` (Licitaciones): URL
validation, temp-file handling around the per-source document round-trip,
prompt construction, per-source aggregation with the Gemini call modelled as
an oracle, response rendering, the predefined-question table, and JSON
extraction from Markdown fencing.  External effects (HTTP fetch, model API
call, filesystem) are modelled by explicit oracle arguments / explicit state,
fallible steps by `Option`/`Except`.
-/

namespace Licitaciones

/-- The backtick character (used by the Markdown JSON fence). -/
def backtick : Char := Char.ofNat 96

/-- Concatenation of a list of strings (used to state transcript structure). -/
def concatAll : List String → String
  | [] => ""
  | s :: rest => s ++ concatAll rest

/-- Model of Python `sep.join(parts)`. -/
def joinSep (sep : String) : List String → String
  | [] => ""
  | [s] => s
  | s :: rest => s ++ sep ++ joinSep sep rest

/-- Substring test on character lists: does `pat` occur contiguously in the list? -/
def containsSub (pat : List Char) : List Char → Bool
  | [] => pat.isEmpty
  | c :: rest => pat.isPrefixOf (c :: rest) || containsSub pat rest

/-- Split a character list at the first occurrence of `pat`:
`breakOnSub pat l = some (pre, post)` with `l = pre ++ pat ++ post` and the
occurrence leftmost; `none` when `pat` does not occur. -/
def breakOnSub (pat : List Char) : List Char → Option (List Char × List Char)
  | [] => if pat.isEmpty then some ([], []) else none
  | c :: rest =>
    if pat.isPrefixOf (c :: rest) then some ([], (c :: rest).drop pat.length)
    else match breakOnSub pat rest with
      | some (pre, post) => some (c :: pre, post)
      | none => none

/-! ## Validator (`is_valid_url`, `is_pdf_url`, app.py lines 21-31)

`urlparse` comes from the Python standard library; `urlsplitModel` below
models the scheme/netloc extraction of CPython 3.11's
`urllib.parse.urlsplit`: leading C0-control/space stripping, removal of
tab/CR/LF, scheme split at the first colon when the head is an ASCII letter
and every scheme character is alphanumeric or `+`/`-`/`.`, netloc after
`//` up to the first `/`, `?` or `#`, and every `ValueError` path —
mismatched brackets, bracketed-host validation (`_check_bracketed_host`,
backed by `ipaddress` IPv4/IPv6 parsing and the IPvFuture pattern), and the
NFKC netloc check (`_checknetloc`, reduced to its exact finite character
set). -/

/-- Characters allowed in a URL scheme (CPython `scheme_chars`). -/
def isSchemeChar (c : Char) : Bool :=
  c.isAlpha || c.isDigit || c = '+' || c = '-' || c = '.'

/-- Split a character list at the first colon, returning the parts before and
after it. -/
def splitFirstColon : List Char → Option (List Char × List Char)
  | [] => none
  | c :: cs =>
    if c = ':' then some ([], cs)
    else match splitFirstColon cs with
      | some (a, b) => some (c :: a, b)
      | none => none

/-- Scheme extraction of `urlsplit`: the text before the first colon is the
scheme iff it is nonempty, starts with an ASCII letter and consists of scheme
characters only; the scheme is lowercased. -/
def splitScheme (url : List Char) : List Char × List Char :=
  match splitFirstColon url with
  | none => ([], url)
  | some (a, b) =>
    match a with
    | [] => ([], url)
    | c :: _ =>
      if c.isAlpha && a.all isSchemeChar then (a.map Char.toLower, b)
      else ([], url)

/-- Characters that terminate the netloc component. -/
def netlocEnd (c : Char) : Bool := c = '/' || c = '?' || c = '#'

/-- Predicate for the netloc span (`_splitnetloc` scans until a delimiter). -/
def notNetlocEnd (c : Char) : Bool := !netlocEnd c

/-- Characters stripped from the left of the URL
(CPython `_WHATWG_C0_CONTROL_OR_SPACE`). -/
def isC0ControlOrSpace (c : Char) : Bool := c.toNat ≤ 32

/-- Characters kept by the removal of the unsafe bytes tab/CR/LF
(CPython `_UNSAFE_URL_BYTES_TO_REMOVE`). -/
def keepUrlChar (c : Char) : Bool := !(c = '\t' || c = '\r' || c = '\n')

/-- Split a character list on a separator, like Python `str.split(sep)`
(an empty input yields one empty field). -/
def splitOnChar (sep : Char) : List Char → List (List Char)
  | [] => [[]]
  | c :: rest =>
    if c = sep then [] :: splitOnChar sep rest
    else
      match splitOnChar sep rest with
      | [] => [[c]]
      | p :: ps => (c :: p) :: ps

/-- Split at the first occurrence of a separator, like Python
`str.partition(sep)`: the part before it and, when the separator occurs,
the part after it. -/
def partitionChar (sep : Char) : List Char → List Char × Option (List Char)
  | [] => ([], none)
  | c :: rest =>
    if c = sep then ([], some rest)
    else
      match partitionChar sep rest with
      | (pre, tail) => (c :: pre, tail)

/-- Hex digits accepted by `ipaddress` hextets and the IPvFuture pattern
(`0-9A-Fa-f`). -/
def isHexDigitChar (c : Char) : Bool :=
  c.isDigit || (97 ≤ c.toNat && c.toNat ≤ 102) || (65 ≤ c.toNat && c.toNat ≤ 70)

/-- Decimal value of a digit run. -/
def digitsVal (l : List Char) : Nat :=
  l.foldl (fun n c => n * 10 + (c.toNat - 48)) 0

/-- One IPv4 octet (`ipaddress.IPv4Address._parse_octet`, CPython 3.11):
non-empty, ASCII decimal digits only, at most 3 characters, no leading zero
except "0" itself, value at most 255. -/
def ipv4OctetOk (o : List Char) : Bool :=
  match o with
  | [] => false
  | d :: ds =>
    (d :: ds).all Char.isDigit && (d :: ds).length ≤ 3 &&
    (d ≠ '0' || ds.isEmpty) && digitsVal (d :: ds) ≤ 255

/-- A valid dotted-quad IPv4 literal (`IPv4Address._ip_int_from_string`):
exactly four valid octets. -/
def ipv4AddressOk (s : List Char) : Bool :=
  let octets := splitOnChar '.' s
  octets.length = 4 && octets.all ipv4OctetOk

/-- Numeric value of a (valid) dotted-quad IPv4 literal. -/
def ipv4Value (s : List Char) : Nat :=
  match splitOnChar '.' s with
  | [a, b, c, d] =>
    ((digitsVal a * 256 + digitsVal b) * 256 + digitsVal c) * 256 + digitsVal d
  | _ => 0

/-- One IPv6 hextet (`IPv6Address._parse_hextet`): hex digits only, at most
4 characters; an empty hextet fails the integer conversion. -/
def hextetOk (h : List Char) : Bool :=
  !h.isEmpty && h.all isHexDigitChar && h.length ≤ 4

/-- The `'::'`-placement and hextet checks of
`IPv6Address._ip_int_from_string` (CPython 3.11) on the colon-split parts,
after any IPv4 suffix has been rewritten into two hextets: at most 9 parts;
at most one empty inner part (the `'::'`); an empty endpoint only next to
the `'::'`; at least one group actually skipped; without `'::'` exactly 8
parts with non-empty endpoints; every counted part a valid hextet. -/
def ipv6PartsOk (parts : List (List Char)) : Bool :=
  if 9 < parts.length then false
  else
    let inner := (parts.drop 1).dropLast
    if 2 ≤ (inner.filter List.isEmpty).length then false
    else if (inner.filter List.isEmpty).length = 1 then
      let skipIdx := inner.findIdx List.isEmpty + 1
      let hi0 := skipIdx
      let lo0 := parts.length - skipIdx - 1
      let headEmpty := (parts.headD []).isEmpty
      let lastEmpty := (parts.getLastD []).isEmpty
      if headEmpty && hi0 ≠ 1 then false
      else if lastEmpty && lo0 ≠ 1 then false
      else
        let hi := if headEmpty then hi0 - 1 else hi0
        let lo := if lastEmpty then lo0 - 1 else lo0
        if 8 ≤ hi + lo then false
        else
          (parts.take hi).all hextetOk &&
          (parts.drop (parts.length - lo)).all hextetOk
    else
      if parts.length ≠ 8 then false
      else if (parts.headD []).isEmpty then false
      else if (parts.getLastD []).isEmpty then false
      else parts.all hextetOk

/-- A valid IPv6 literal without scope
(`IPv6Address._ip_int_from_string`): non-empty, at most 45 characters, at
least 3 colon-split parts, an optional dotted-quad suffix converted to two
hextets, then the part checks. -/
def ipv6AddressOk (addr : List Char) : Bool :=
  if addr.isEmpty then false
  else if 45 < addr.length then false
  else
    let parts0 := splitOnChar ':' addr
    if parts0.length < 3 then false
    else
      let lastPart := parts0.getLastD []
      if lastPart.contains '.' then
        if !ipv4AddressOk lastPart then false
        else
          ipv6PartsOk (parts0.dropLast ++
            [Nat.toDigits 16 (ipv4Value lastPart / 65536),
             Nat.toDigits 16 (ipv4Value lastPart % 65536)])
      else ipv6PartsOk parts0

/-- A valid IPv6 literal with optional `%scope`
(`IPv6Address.__init__` and `_split_scope_id`, CPython 3.11): no `/`; a
`%`-separated scope, when present, must be non-empty and `%`-free. -/
def ipv6WithScopeOk (s : List Char) : Bool :=
  if s.contains '/' then false
  else
    match partitionChar '%' s with
    | (addr, none) => ipv6AddressOk addr
    | (addr, some scope) =>
      if scope.isEmpty || scope.contains '%' then false
      else ipv6AddressOk addr

/-- The IPvFuture arm of `_check_bracketed_host`: the anchored regex
`v[0-9A-Fa-f]+\..+` (`.` excludes newline).  Because hex digits are not
`.`, the backtracking regex matches exactly when the literal dot follows
the maximal hex run. -/
def ipvFutureOk (h : List Char) : Bool :=
  match h with
  | 'v' :: rest =>
    !(rest.takeWhile isHexDigitChar).isEmpty &&
      (match rest.dropWhile isHexDigitChar with
       | '.' :: tl => !tl.isEmpty && tl.all (fun c => c ≠ '\n')
       | _ => false)
  | _ => false

/-- Model of `urllib.parse._check_bracketed_host` (CPython 3.11) as a
validity test: a `v`-led host must match the IPvFuture pattern; otherwise
`ipaddress.ip_address` must succeed and not be IPv4 — i.e. the host must be
a valid IPv6 literal (optionally scoped). -/
def bracketedHostOk (h : List Char) : Bool :=
  match h with
  | 'v' :: _ => ipvFutureOk h
  | _ => if ipv4AddressOk h then false else ipv6WithScopeOk h

/-- Code points whose NFKC normalization contains one of `/?#@:`
(Unicode 14.0.0, the table CPython 3.11 ships): `⁇ ⁈ ⁉ ℀ ℁ ℅ ℆ ⩴ ︓ ︖ ﹕ ﹖
﹟ ﹫ ＃ ／ ： ？ ＠`. -/
def badNetlocCodes : List Nat :=
  [0x2047, 0x2048, 0x2049, 0x2100, 0x2101, 0x2105, 0x2106, 0x2a74,
   0xfe13, 0xfe16, 0xfe55, 0xfe56, 0xfe5f, 0xfe6b, 0xff03, 0xff0f,
   0xff1a, 0xff1f, 0xff20]

/-- Model of `urllib.parse._checknetloc` (CPython 3.11) as a validity test.
The CPython check raises iff the netloc minus `@:#?` differs from its NFKC
normalization and that normalization contains one of `/?#@:`; a netloc
produced by `_splitnetloc` never contains `/`, `?` or `#`, so this is
equivalent to the netloc containing a character whose own NFKC form
contains one of those delimiters — the finite `badNetlocCodes` set
(verified exhaustively per character and by differential fuzzing against
CPython 3.11). -/
def checknetlocOk (netloc : List Char) : Bool :=
  !netloc.any (fun c => badNetlocCodes.contains c.toNat)

/-- Result of `urlparse` restricted to the two components `is_valid_url` reads. -/
structure UrlParts where
  scheme : List Char
  netloc : List Char
deriving DecidableEq

/-- Model of CPython 3.11 `urlsplit` restricted to scheme and netloc;
`Except.error` models every `ValueError` the call can raise: mismatched
IPv6 brackets, an invalid bracketed host (`_check_bracketed_host`), and the
NFKC netloc check (`_checknetloc`).  When no `//` follows the scheme the
netloc is empty and `_checknetloc('')` returns immediately. -/
def urlsplitModel (s : List Char) : Except Unit UrlParts :=
  let url := (s.dropWhile isC0ControlOrSpace).filter keepUrlChar
  let p := splitScheme url
  match p.2 with
  | '/' :: '/' :: r =>
    let netloc := r.takeWhile notNetlocEnd
    if (netloc.contains '[' && !netloc.contains ']')
        || (netloc.contains ']' && !netloc.contains '[') then
      Except.error ()
    else
      let bracketOk :=
        if netloc.contains '[' && netloc.contains ']' then
          bracketedHostOk
            (((netloc.dropWhile (fun c => c ≠ '[')).drop 1).takeWhile
              (fun c => c ≠ ']'))
        else true
      if !bracketOk then Except.error ()
      else if !checknetlocOk netloc then Except.error ()
      else Except.ok ⟨p.1, netloc⟩
  | _ => Except.ok ⟨p.1, []⟩

/-- Model of `is_valid_url` (app.py lines 21-27): `urlparse` the string, catch
`ValueError`, and require both scheme and netloc to be non-empty
(`all([result.scheme, result.netloc])`). -/
def is_valid_url (url : String) : Bool :=
  match urlsplitModel url.toList with
  | Except.error _ => false
  | Except.ok r => !r.scheme.isEmpty && !r.netloc.isEmpty

/-- Model of `is_pdf_url` (app.py lines 29-31):
`url.lower().endswith(('.pdf', '.PDF'))`.  `Char.toLower` models `str.lower`
on the ASCII range (no claim involves non-ASCII case mapping). -/
def is_pdf_url (url : String) : Bool :=
  let low := url.toList.map Char.toLower
  List.isSuffixOf ".pdf".toList low || List.isSuffixOf ".PDF".toList low

/-- Whitespace stripped by Python `str.strip()` (ASCII fragment; no input in
any claim uses non-ASCII whitespace). -/
def pyIsSpace (c : Char) : Bool :=
  c = ' ' || c = '\t' || c = '\n' || c = '\r' || c = '\x0b' || c = '\x0c'

/-- Model of Python `str.strip()`. -/
def pyStrip (s : String) : String :=
  String.mk (((s.toList.dropWhile pyIsSpace).reverse.dropWhile pyIsSpace).reverse)

/-! ## JSON model (`json.loads`, Python standard library)

The extractor (app.py lines 340-353) delegates parsing to `json.loads`.
`json_loads` below models CPython's strict JSON decoder: whitespace is
space/tab/LF/CR; strings require `"` quoting, reject unescaped control
characters and support the standard escapes (`\uXXXX` is mapped through
`Char.ofNat`, so lone surrogates — which no claim exercises — collapse to
NUL); numbers follow the JSON grammar and keep their lexeme; `NaN`,
`Infinity` and `-Infinity` are accepted as CPython does; objects keep the
first-insertion position of a key and its last value, as Python dicts do.
Failure (`json.JSONDecodeError`) is `none`. -/

/-- JSON values as produced by the model of `json.loads`.  Number literals
keep their source lexeme (no claim compares numeric magnitudes, which lets
the model avoid floating point). -/
inductive Json where
  | null : Json
  | bool (b : Bool) : Json
  | num (lexeme : String) : Json
  | str (s : String) : Json
  | arr (elems : List Json) : Json
  | obj (members : List (String × Json)) : Json

/-- JSON whitespace characters. -/
def jsonWs (c : Char) : Bool := c = ' ' || c = '\t' || c = '\n' || c = '\r'

/-- Skip JSON whitespace. -/
def skipWs (l : List Char) : List Char := l.dropWhile jsonWs

/-- Value of one hex digit, if the character is one. -/
def hexVal (c : Char) : Option Nat :=
  if c.isDigit then some (c.toNat - 48)
  else if 97 ≤ c.toNat ∧ c.toNat ≤ 102 then some (c.toNat - 87)
  else if 65 ≤ c.toNat ∧ c.toNat ≤ 70 then some (c.toNat - 55)
  else none

/-- Parse the body of a JSON string after the opening quote; returns the
decoded string and the rest of the input after the closing quote. -/
def parseStringBody (fuel : Nat) (l : List Char) (acc : List Char) :
    Option (String × List Char) :=
  match fuel with
  | 0 => none
  | fuel + 1 =>
    match l with
    | [] => none
    | c :: rest =>
      if c = '"' then some (String.mk acc.reverse, rest)
      else if c = '\\' then
        match rest with
        | [] => none
        | e :: rest2 =>
          if e = '"' then parseStringBody fuel rest2 ('"' :: acc)
          else if e = '\\' then parseStringBody fuel rest2 ('\\' :: acc)
          else if e = '/' then parseStringBody fuel rest2 ('/' :: acc)
          else if e = 'b' then parseStringBody fuel rest2 ('\x08' :: acc)
          else if e = 'f' then parseStringBody fuel rest2 ('\x0c' :: acc)
          else if e = 'n' then parseStringBody fuel rest2 ('\n' :: acc)
          else if e = 'r' then parseStringBody fuel rest2 ('\r' :: acc)
          else if e = 't' then parseStringBody fuel rest2 ('\t' :: acc)
          else if e = 'u' then
            match rest2 with
            | h1 :: h2 :: h3 :: h4 :: rest3 =>
              match hexVal h1, hexVal h2, hexVal h3, hexVal h4 with
              | some a, some b, some c3, some d =>
                parseStringBody fuel rest3
                  (Char.ofNat (((a * 16 + b) * 16 + c3) * 16 + d) :: acc)
              | _, _, _, _ => none
            | _ => none
          else none
      else if c.toNat < 32 then none
      else parseStringBody fuel rest (c :: acc)

/-- Parse a JSON number lexeme (`-?(0|[1-9][0-9]*)(\.[0-9]+)?([eE][-+]?[0-9]+)?`);
returns the lexeme and the rest of the input. -/
def parseNumber (l : List Char) : Option (List Char × List Char) :=
  let sl : List Char × List Char :=
    match l with
    | '-' :: r => (['-'], r)
    | _ => ([], l)
  match sl.2 with
  | [] => none
  | c :: r =>
    if c = '0' ∨ c.isDigit then
      let ip : List Char × List Char :=
        if c = '0' then (['0'], r)
        else (c :: r.takeWhile Char.isDigit, r.dropWhile Char.isDigit)
      let fp : List Char × List Char :=
        match ip.2 with
        | '.' :: rr =>
          if (rr.takeWhile Char.isDigit).isEmpty then ([], ip.2)
          else ('.' :: rr.takeWhile Char.isDigit, rr.dropWhile Char.isDigit)
        | _ => ([], ip.2)
      let ep : List Char × List Char :=
        match fp.2 with
        | e :: rr =>
          if e = 'e' ∨ e = 'E' then
            let sg : List Char × List Char :=
              match rr with
              | s :: rr2 => if s = '+' ∨ s = '-' then ([s], rr2) else ([], rr)
              | [] => ([], rr)
            if (sg.2.takeWhile Char.isDigit).isEmpty then ([], fp.2)
            else (e :: sg.1 ++ sg.2.takeWhile Char.isDigit, sg.2.dropWhile Char.isDigit)
          else ([], fp.2)
        | [] => ([], fp.2)
      some (sl.1 ++ ip.1 ++ fp.1 ++ ep.1, ep.2)
    else none

/-- Insert a key/value pair as Python `dict` does: position of the first
insertion of the key, value of the last. -/
def dictInsert (kvs : List (String × Json)) (k : String) (v : Json) :
    List (String × Json) :=
  match kvs with
  | [] => [(k, v)]
  | (k0, v0) :: rest =>
    if k0 = k then (k0, v) :: rest else (k0, v0) :: dictInsert rest k v

mutual

/-- Parse one JSON value (leading whitespace allowed); returns the value and
the unconsumed rest. -/
def parseValue (fuel : Nat) (l : List Char) : Option (Json × List Char) :=
  match fuel with
  | 0 => none
  | fuel + 1 =>
    let cur := skipWs l
    match cur with
    | [] => none
    | c :: rest =>
      if c = '"' then
        match parseStringBody (rest.length + 1) rest [] with
        | some (s, r) => some (Json.str s, r)
        | none => none
      else if c = '\x7b' then
        match skipWs rest with
        | '\x7d' :: r => some (Json.obj [], r)
        | l2 => parseMembers fuel l2 []
      else if c = '[' then
        match skipWs rest with
        | ']' :: r => some (Json.arr [], r)
        | l2 => parseElems fuel l2 []
      else if List.isPrefixOf "null".toList cur then some (Json.null, cur.drop 4)
      else if List.isPrefixOf "true".toList cur then some (Json.bool true, cur.drop 4)
      else if List.isPrefixOf "false".toList cur then some (Json.bool false, cur.drop 5)
      else
        match parseNumber cur with
        | some (lex, r) => some (Json.num (String.mk lex), r)
        | none =>
          if List.isPrefixOf "NaN".toList cur then some (Json.num "NaN", cur.drop 3)
          else if List.isPrefixOf "Infinity".toList cur then
            some (Json.num "Infinity", cur.drop 8)
          else if List.isPrefixOf "-Infinity".toList cur then
            some (Json.num "-Infinity", cur.drop 9)
          else none

/-- Parse the members of a JSON object after `{` (whitespace already
skipped, at least one member present). -/
def parseMembers (fuel : Nat) (l : List Char) (acc : List (String × Json)) :
    Option (Json × List Char) :=
  match fuel with
  | 0 => none
  | fuel + 1 =>
    match l with
    | '"' :: rest =>
      match parseStringBody (rest.length + 1) rest [] with
      | none => none
      | some (key, r1) =>
        match skipWs r1 with
        | ':' :: r2 =>
          match parseValue fuel r2 with
          | none => none
          | some (v, r3) =>
            match skipWs r3 with
            | ',' :: r4 => parseMembers fuel (skipWs r4) (dictInsert acc key v)
            | '\x7d' :: r4 => some (Json.obj (dictInsert acc key v), r4)
            | _ => none
        | _ => none
    | _ => none

/-- Parse the elements of a JSON array after `[` (at least one element
present). -/
def parseElems (fuel : Nat) (l : List Char) (acc : List Json) :
    Option (Json × List Char) :=
  match fuel with
  | 0 => none
  | fuel + 1 =>
    match parseValue fuel l with
    | none => none
    | some (v, r1) =>
      match skipWs r1 with
      | ',' :: r2 => parseElems fuel r2 (acc ++ [v])
      | ']' :: r2 => some (Json.arr (acc ++ [v]), r2)
      | _ => none

end

/-- Model of `json.loads`: parse one value, allow trailing whitespace, and
fail on any leftover input. -/
def json_loads (s : String) : Option Json :=
  match parseValue (2 * s.length + 2) s.toList with
  | some (v, rest) => if (skipWs rest).isEmpty then some v else none
  | none => none

/-! ## JSON Extractor (`extract_json_from_markdown`, app.py lines 340-353) -/

/-- Opening token of the regex `(three backticks)json\n(.*?)\n(three backticks)`. -/
def fenceOpen : List Char := [backtick, backtick, backtick, 'j', 's', 'o', 'n', '\n']

/-- Closing token of the fence regex. -/
def fenceClose : List Char := ['\n', backtick, backtick, backtick]

/-- Model of `re.search` for the fence pattern with `re.DOTALL`: the match
starts at the leftmost position where the opening token matches and a closing
token occurs later; the non-greedy group is the text up to the first closing
token.  Returns the matched group, or `none` when no position matches. -/
def fenceInterior : List Char → Option (List Char)
  | [] => none
  | c :: rest =>
    if fenceOpen.isPrefixOf (c :: rest) then
      match breakOnSub fenceClose ((c :: rest).drop fenceOpen.length) with
      | some (inner, _) => some inner
      | none => fenceInterior rest
    else fenceInterior rest

/-- Model of `extract_json_from_markdown` (app.py lines 340-353): parse the
interior of the first labeled fence when one matches, otherwise parse the
whole text; any `json.JSONDecodeError` yields `None` (logged, not raised). -/
def extract_json_from_markdown (text : String) : Option Json :=
  match fenceInterior text.toList with
  | some inner => json_loads (String.mk inner)
  | none => json_loads text

/-! ## Prompt Builder (inside `process_pdf_data`, app.py lines 103-122) -/

/-- One conversation turn as the chat-history dicts store it
(`{"question": ..., "answer": ...}`). -/
structure ChatTurn where
  question : String
  answer : String
deriving DecidableEq

/-- One numbered Pregunta/Respuesta block of the transcript
(loop body, app.py lines 111-112). -/
def qaBlock (i : Nat) (c : ChatTurn) : String :=
  "\n\nPregunta " ++ toString i ++ ": " ++ c.question ++
  "\nRespuesta " ++ toString i ++ ": " ++ c.answer

/-- The transcript loop `for i, chat in enumerate(chat_history[:-1], 1)`. -/
def historyContextLoop : Nat → List ChatTurn → String
  | _, [] => ""
  | i, c :: cs => qaBlock i c ++ historyContextLoop (i + 1) cs

/-- Model of the `history_context` computation (app.py lines 107-113): empty
unless the history has more than one entry, otherwise a header followed by
numbered blocks for every entry except the last, and a trailing separator. -/
def history_context (chat_history : List ChatTurn) : String :=
  if 1 < chat_history.length then
    "\n\nHistorial de la conversación:" ++
      historyContextLoop 1 chat_history.dropLast ++ "\n\n"
  else ""

/-- The fixed domain-instruction preamble (app.py lines 116-120), verbatim
including the source's indentation. -/
def base_prompt : String :=
  "Eres un asistente de inteligencia artificial especializado en licitaciones españolas y tus usuarios son empresas españolas que buscan aplicar a licitaciones.\n        Los documentos que te proporcionaré son documentos de licitaciones españolas.\n        Debes responder teniendo en cuenta este contexto, evitando responder preguntas no relacionadas.\n        Es relevante obtener un resumen de la licitación que incluya el precio de la licitación, requisitos técnicos y administrativos, potencialidad, fórmulas de relevancia con propuestas de valores y resumen de posibles problemas o ventajas para la empresa que aplica.\n        Es también relevante proporcionar recomendación sobre si aplicar o no."

/-- The composed prompt
(`f"{base_prompt}\n\n{history_context}\n\nPregunta: {prompt_text}"`,
app.py line 122). -/
def buildPrompt (prompt_text : String) (chat_history : List ChatTurn) : String :=
  base_prompt ++ "\n\n" ++ history_context chat_history ++
    "\n\nPregunta: " ++ prompt_text

/-! ## Model Client and Response Aggregator (app.py lines 36-145)

The Gemini API call (`client.models.generate_content`) is an external
effect; it is modelled by an oracle mapping the composed prompt to either a
raised exception (`Except.error`) or the value of `response.text` — `none`
for an absent text, `some t` for a text `t`.  The HTTP fetch of a URL source
is likewise an oracle.  Every exception path of the source is represented:
the per-source `except` (lines 92-94) and the URL branch's inner `except`
(lines 88-90) turn failures into "no entry"; the outer `except` (lines
98-101) guards only the loop header and is unreachable for list inputs. -/

/-- Outcome of one `client.models.generate_content` call for a fixed
document: an exception, or the `response.text` attribute. -/
def ApiResult : Type := Except Unit (Option String)

/-- Model of `process_pdf_data` (app.py lines 103-140): build the prompt,
call the API, catch any exception (`return None`), and map an empty or
absent `response.text` to `None` (`response.text if response.text else
None`). -/
def process_pdf_data (api : String → ApiResult) (prompt_text : String)
    (chat_history : List ChatTurn) : Option String :=
  match api (buildPrompt prompt_text chat_history) with
  | Except.error _ => none
  | Except.ok none => none
  | Except.ok (some t) => if t = "" then none else some t

/-- One element of the aggregated result
(`{'filename': ..., 'response': ...}`). -/
structure ResponseEntry where
  filename : String
  response : String
deriving DecidableEq

/-- An uploaded file source together with the effects its processing
encounters: `tmpOk` is false when the temp-file write/read raises, and
`api` is the model-call oracle for this document. -/
structure FileDoc where
  name : String
  tmpOk : Bool
  api : String → ApiResult

/-- Outcome of `httpx.get(url, follow_redirects=True)` followed by
`raise_for_status()`: an exception (transport error or non-2xx status), or a
response with the given status code whose body feeds the model-call oracle. -/
inductive FetchOutcome where
  | raises : FetchOutcome
  | status (code : Nat) (api : String → ApiResult) : FetchOutcome

/-- A source as dispatched on `source_type` (app.py lines 42 and 69). -/
inductive SrcSpec where
  | file (d : FileDoc) : SrcSpec
  | url (u : String) : SrcSpec

/-- The entry one source contributes: `none` models every caught failure
(exception, fetch error, non-200 status, empty model output) and `some`
carries the filename-tagged response appended at lines 57-60 / 83-86. -/
def sourceEntry (prompt_text : String) (chat_history : List ChatTurn)
    (fetchOf : String → FetchOutcome) : SrcSpec → Option ResponseEntry
  | SrcSpec.file d =>
    if d.tmpOk then
      (process_pdf_data d.api prompt_text chat_history).map
        (fun t => ⟨d.name, t⟩)
    else none
  | SrcSpec.url u =>
    match fetchOf u with
    | FetchOutcome.raises => none
    | FetchOutcome.status code api =>
      if code = 200 then
        match urlsplitModel u.toList with
        | Except.error _ => none
        | Except.ok parts =>
          (process_pdf_data api prompt_text chat_history).map
            (fun t => ⟨"PDF_from_" ++ String.mk parts.netloc ++ ".pdf", t⟩)
      else none

/-- Model of `process_pdf_with_gemini` (app.py lines 36-101): the loop over
sources with its per-source exception handler; failed sources append
nothing and the loop always runs to completion. -/
def process_pdf_with_gemini (prompt_text : String)
    (chat_history : List ChatTurn) (fetchOf : String → FetchOutcome)
    (sources : List SrcSpec) : List ResponseEntry :=
  sources.foldl
    (fun responses s =>
      match sourceEntry prompt_text chat_history fetchOf s with
      | some e => responses ++ [e]
      | none => responses)
    []

/-- The final rendering loop and join of `get_gemini_response`
(app.py lines 182-186). -/
def formatResponses (all_responses : List ResponseEntry) : String :=
  joinSep "\n\n---\n\n"
    (all_responses.map (fun r => "**" ++ r.filename ++ "**\n" ++ r.response))

/-- Per-element step of the URL comprehension (app.py line 167): keep the
stripped URL iff it is truthy and valid. -/
def stripIfValid (url : String) : Option String :=
  let s := pyStrip url
  if !s.isEmpty && is_valid_url s then some s else none

/-- The URL filter of `get_gemini_response` (app.py line 167):
`[url.strip() for url in url_docs if url.strip() and is_valid_url(url.strip())]`
— the `is_pdf_url` conjunct is commented out in the source. -/
def validUrls (url_docs : List String) : List String :=
  url_docs.filterMap stripIfValid

/-- Model of `get_gemini_response` (app.py lines 147-186): process file
sources, then the filtered URL sources, and render; when no source yielded
an entry, return the user-facing sentinel string instead. -/
def get_gemini_response (prompt_text : String) (file_docs : List FileDoc)
    (url_docs : List String) (chat_history : List ChatTurn)
    (fetchOf : String → FetchOutcome) : String :=
  let all0 : List ResponseEntry := []
  let all1 :=
    if file_docs.isEmpty then all0
    else
      let fr := process_pdf_with_gemini prompt_text chat_history fetchOf
        (file_docs.map SrcSpec.file)
      if fr.isEmpty then all0 else all0 ++ fr
  let all2 :=
    if url_docs.isEmpty then all1
    else
      let vu := validUrls url_docs
      if vu.isEmpty then all1
      else
        let ur := process_pdf_with_gemini prompt_text chat_history fetchOf
          (vu.map SrcSpec.url)
        if ur.isEmpty then all1 else all1 ++ ur
  if all2.isEmpty then
    "Error: No se proporcionaron documentos. Por favor, sube un archivo PDF o proporciona una URL de PDF."
  else formatResponses all2

/-! ## Document Fetcher file path (app.py lines 46-67)

The filesystem is modelled as the list of existing temp-file paths.
`NamedTemporaryFile(delete=False)` creates a uniquely named file;
`os.unlink` removes an existing file and raises (`FileNotFoundError`) when
the path does not exist — in the single-threaded model a present file is
always removable.  The `finally` block catches any deletion error and only
logs it (lines 62-67); an exception from the body (read failure or
`process_pdf_data` machinery) propagates after the cleanup ran. -/

/-- Model of `os.unlink`: remove the path, or raise when it is absent. -/
def os_unlink (files : List String) (p : String) : Except Unit (List String) :=
  if p ∈ files then Except.ok (files.erase p) else Except.error ()

/-- Model of the temp-file round-trip (app.py lines 46-67): create the temp
file, run the body — `body_raises` says whether it raises — and in `finally`
attempt `os.unlink`, swallowing its failure.  Returns the filesystem after
the call and whether the call raises to its caller. -/
def temp_file_roundtrip (files0 : List String) (tmp_path : String)
    (body_raises : Bool) : List String × Bool :=
  let files1 := tmp_path :: files0
  let files2 :=
    match os_unlink files1 tmp_path with
    | Except.ok fs => fs
    | Except.error _ => files1
  (files2, body_raises)

/-! ## Predefined questions (app.py lines 209-226) and card schema (355-384) -/

/-- The detailed body of the "Resumen de licitación (JSON)" predefined
question (app.py line 222), verbatim. -/
def resumenLicitacionJSONBody : String :=
  "Analiza este documento de licitación y devuelve un JSON con la siguiente estructura en formato Markdown:\n\n```json\n\x7b\n  \"porcentaje_recomendacion\": \"X%\",\n  \"porcentaje_recomendacion_short_explain\": \"Breve explicación de 1-2 frases sobre el porcentaje de recomendación\",\n  \"objeto_contrato\": \"Descripción detallada del objeto del contrato\",\n  \"presupuesto\": \"Presupuesto Base de Licitación (sin IVA)\",\n  \"solvencia_requerida\": \"Niveles de solvencia técnica y económica requeridos\",\n  \"habilitaciones_necesarias\": \"Lista de habilitaciones, certificaciones o requisitos necesarios\",\n  \"garantias\": \"Detalles sobre las garantías requeridas (provisionales, definitivas, etc.)\",\n  \"ecuaciones\": \"Fórmulas o criterios de valoración si los hay\",\n  \"otras_condiciones\": \"Otras condiciones relevantes de la licitación\",\n  \"recomendacion\": \"Análisis detallado y recomendación sobre la conveniencia de participar\"\n\x7d\n```\n\nPor favor, completa cada campo con la información relevante extraída del documento. Si algún dato no está disponible, indícalo como No especificado. El campo `porcentaje_recomendacion` debe ser un porcentaje (ej: \"75%\") y `porcentaje_recomendacion_short_explain` debe ser una explicación concisa de 1-2 frases. Todos los valores de este JSON serán strings que siguen el formato markdown."

/-- The predefined-question table (app.py lines 210-223), as the ordered
key/body association the Python dict holds. -/
def PREDEFINED_QUESTIONS : List (String × String) :=
  [("", ""),
   ("Resumen del documento", "Por favor, proporciona un resumen detallado de los puntos clave de este documento, incluyendo los temas principales, hallazgos importantes y conclusiones relevantes. Incluye ejemplos específicos cuando sea posible."),
   ("Tema principal", "Analiza cuidadosamente este documento y describe en detalle cuál es su tema principal. Explica por qué es importante este tema y cómo se desarrolla a lo largo del texto. Incluye subtemas o aspectos clave que apoyen el tema principal."),
   ("Hallazgos principales", "Identifica y enumera los hallazgos o conclusiones principales presentados en este documento. Para cada hallazgo, proporciona el contexto necesario y explica su relevancia. Si es posible, incluye datos o estadísticas específicas que respalden estos hallazgos."),
   ("Argumentos clave", "Analiza y describe en detalle los argumentos principales presentados en este documento. Explica la lógica detrás de cada argumento, las pruebas presentadas y cómo se relacionan entre sí. Evalúa la solidez de estos argumentos si es posible."),
   ("Fechas importantes", "Extrae y enumera todas las fechas, plazos o hitos importantes mencionados en este documento. Para cada uno, proporciona el contexto relevante, incluyendo qué evento o acción está programada y cualquier consecuencia o requisito asociado."),
   ("Metodología", "Describe en detalle la metodología utilizada en este documento. Explica los métodos de investigación, herramientas, técnicas o enfoques empleados, así como la justificación para su uso. Incluye cualquier limitación o consideración especial mencionada."),
   ("Recomendaciones", "Identifica y describe todas las recomendaciones o elementos de acción propuestos en este documento. Para cada uno, explica su propósito, a quién está dirigido y qué resultados se esperan lograr. Incluye cualquier marco de tiempo o recurso mencionado."),
   ("Limitaciones", "Detalla las limitaciones o restricciones mencionadas en este documento. Explica cómo estas limitaciones podrían afectar los hallazgos o conclusiones presentadas. Si se mencionan formas de mitigar estas limitaciones, inclúyelas también."),
   ("Datos y estadísticas", "Extrae y resume los datos, estadísticas o cifras clave mencionadas en este documento. Para cada dato, proporciona el contexto, la fuente si está disponible y su relevancia para los hallazgos o conclusiones del documento."),
   ("Estructura del documento", "Describe la estructura y organización de este documento. Identifica las secciones principales, su propósito y cómo se relacionan entre sí. Explica cómo esta estructura ayuda a presentar la información de manera efectiva."),
   ("Resumen de licitación (JSON)", resumenLicitacionJSONBody)]

/-- The dropdown options (app.py line 226):
`[""] + list(PREDEFINED_QUESTIONS.keys())[1:]`. -/
def QUESTION_OPTIONS : List String :=
  [""] ++ (PREDEFINED_QUESTIONS.map Prod.fst).drop 1

/-- The card-rendering schema of `display_json_cards`
(app.py lines 361-371): the nine named fields with their Spanish labels. -/
def field_labels : List (String × String) :=
  [("porcentaje_recomendacion", "Porcentaje de Recomendación"),
   ("objeto_contrato", "Objeto del Contrato"),
   ("presupuesto", "Presupuesto"),
   ("solvencia_requerida", "Solvencia Requerida"),
   ("habilitaciones_necesarias", "Habilitaciones Necesarias"),
   ("garantias", "Garantías"),
   ("ecuaciones", "Fórmulas de Valoración"),
   ("otras_condiciones", "Otras Condiciones"),
   ("recomendacion", "Recomendación")]

/-! ## Theorems -/

set_option maxRecDepth 10000

/-- Helper: the transcript loop renders one block per history entry, numbered
from its starting index, in order. -/
theorem historyContextLoop_eq_concatAll (l : List ChatTurn) :
    ∀ i, historyContextLoop i l =
      concatAll ((l.enumFrom i).map (fun p => qaBlock p.1 p.2)) := by
  induction l with
  | nil => intro i; rfl
  | cons c cs ih =>
    intro i
    simp [historyContextLoop, List.enumFrom, concatAll, ih (i + 1)]

/-- C2: for every byte payload routed through the file path, the uniquely
named temporary file does not exist after the call, on every exit path
(`body_raises` false: success; true: read failure or other exception), the
filesystem is restored exactly, and the only exception that propagates is
the body's own — a deletion failure is caught by the inner handler and never
escalated (app.py lines 46-67). -/
theorem temp_file_cleanup (files0 : List String) (tmp_path : String)
    (body_raises : Bool) (hfresh : tmp_path ∉ files0) :
    (temp_file_roundtrip files0 tmp_path body_raises).1 = files0 ∧
    tmp_path ∉ (temp_file_roundtrip files0 tmp_path body_raises).1 ∧
    (temp_file_roundtrip files0 tmp_path body_raises).2 = body_raises := by
  have hmem : tmp_path ∈ tmp_path :: files0 := List.mem_cons_self _ _
  refine ⟨?_, ?_, rfl⟩
  · simp [temp_file_roundtrip, os_unlink, if_pos hmem, List.erase_cons_head]
  · simp [temp_file_roundtrip, os_unlink, if_pos hmem, List.erase_cons_head]
    exact hfresh

/-- Witness for C2 at a concrete filesystem and path. -/
theorem temp_file_cleanup_witness :
    (temp_file_roundtrip ["/docs/a.pdf"] "/tmp/tmpabc123.pdf" true).1 = ["/docs/a.pdf"] ∧
    "/tmp/tmpabc123.pdf" ∉ (temp_file_roundtrip ["/docs/a.pdf"] "/tmp/tmpabc123.pdf" true).1 ∧
    (temp_file_roundtrip ["/docs/a.pdf"] "/tmp/tmpabc123.pdf" true).2 = true :=
  temp_file_cleanup ["/docs/a.pdf"] "/tmp/tmpabc123.pdf" true (by decide)

/-- C7: the final rendering of a non-empty aggregated response is the
`filename`/`response` blocks joined by the horizontal-rule separator in
source order; on the two-entry example the result is the exact expected
string (app.py lines 181-186). -/
theorem aggregated_render :
    formatResponses [⟨"x.pdf", "R1"⟩, ⟨"y.pdf", "R2"⟩] =
      "**x.pdf**\nR1\n\n---\n\n**y.pdf**\nR2" ∧
    ∀ (e : ResponseEntry) (es : List ResponseEntry),
      formatResponses (e :: es) =
        ("**" ++ e.filename ++ "**\n" ++ e.response) ++
          (if es = [] then "" else "\n\n---\n\n" ++ formatResponses es) := by
  refine ⟨rfl, ?_⟩
  intro e es
  cases es with
  | nil => simp [formatResponses, joinSep]
  | cons f fs => simp [formatResponses, joinSep, String.append_assoc]

/-- C8 counterexample: the predefined-question table does not have ten
non-empty keys (app.py lines 210-223 define eleven). -/
theorem predefined_questions_not_ten :
    ¬ ((PREDEFINED_QUESTIONS.filter (fun p => !(p.1 == ""))).length = 10) := by
  decide

/-- C8 (amended): the predefined-question table offers exactly eleven keys
besides the empty default, in the source's order, each bound to its fixed
literal body; the dropdown exposes exactly these keys; the card schema has
exactly nine named fields, each quoted in the JSON-summary template, and the
template fixes the sentinel "No especificado" (app.py lines 209-226,
361-371). -/
theorem predefined_questions_table :
    PREDEFINED_QUESTIONS.map Prod.fst =
      ["", "Resumen del documento", "Tema principal", "Hallazgos principales",
       "Argumentos clave", "Fechas importantes", "Metodología",
       "Recomendaciones", "Limitaciones", "Datos y estadísticas",
       "Estructura del documento", "Resumen de licitación (JSON)"] ∧
    (PREDEFINED_QUESTIONS.filter (fun p => !(p.1 == ""))).length = 11 ∧
    (PREDEFINED_QUESTIONS.map Prod.fst).Nodup ∧
    PREDEFINED_QUESTIONS.lookup "Resumen de licitación (JSON)" =
      some resumenLicitacionJSONBody ∧
    QUESTION_OPTIONS = PREDEFINED_QUESTIONS.map Prod.fst ∧
    field_labels.map Prod.fst =
      ["porcentaje_recomendacion", "objeto_contrato", "presupuesto",
       "solvencia_requerida", "habilitaciones_necesarias", "garantias",
       "ecuaciones", "otras_condiciones", "recomendacion"] ∧
    (field_labels.map Prod.fst).length = 9 ∧
    (field_labels.map Prod.fst).all
      (fun k => containsSub ("\"" ++ k ++ "\"").toList
        resumenLicitacionJSONBody.toList) = true ∧
    containsSub "No especificado".toList resumenLicitacionJSONBody.toList = true := by
  refine ⟨rfl, by decide, by decide, rfl, rfl, rfl, rfl, by decide, by decide⟩

/-- C3: with at most one history entry the prompt carries no transcript
block at all (the history segment is empty); with at least two entries the
transcript is the header followed by exactly one numbered Pregunta/Respuesta
block per history entry except the final one, 1-indexed, in original order —
so the in-flight turn's own placeholder answer never appears
(app.py lines 103-122). -/
theorem prompt_history_rendering (h : List ChatTurn) (q : String) :
    (h.length ≤ 1 → history_context h = "" ∧
      buildPrompt q h = base_prompt ++ "\n\n" ++ "" ++ "\n\nPregunta: " ++ q) ∧
    (2 ≤ h.length →
      history_context h = "\n\nHistorial de la conversación:" ++
        concatAll ((h.dropLast.enumFrom 1).map (fun p => qaBlock p.1 p.2)) ++
        "\n\n" ∧
      h.dropLast.length = h.length - 1) := by
  constructor
  · intro hle
    have hnot : ¬ 1 < h.length := by omega
    constructor
    · simp [history_context, hnot]
    · simp [buildPrompt, history_context, hnot]
  · intro hge
    have hlt : 1 < h.length := by omega
    exact ⟨by simp [history_context, hlt, historyContextLoop_eq_concatAll],
           List.length_dropLast h⟩

/-- Witness for C3 at a one-entry and a two-entry history. -/
theorem prompt_history_rendering_witness :
    history_context [⟨"q1", "a1"⟩] = "" ∧
    history_context [⟨"q1", "a1"⟩, ⟨"q2", "a2"⟩] =
      "\n\nHistorial de la conversación:" ++
        concatAll ((([⟨"q1", "a1"⟩, ⟨"q2", "a2"⟩] : List ChatTurn).dropLast.enumFrom 1).map
          (fun p => qaBlock p.1 p.2)) ++ "\n\n" :=
  ⟨((prompt_history_rendering [⟨"q1", "a1"⟩] "q").1 (by decide)).1,
   ((prompt_history_rendering [⟨"q1", "a1"⟩, ⟨"q2", "a2"⟩] "q").2 (by decide)).1⟩

/-- Helper: a loop that appends `f`'s successes and keeps the accumulator on
failures collects exactly the successful entries, in order. -/
theorem foldl_collect {α β : Type} (f : α → Option β) (g : List β → α → List β)
    (hnone : ∀ acc s, f s = none → g acc s = acc)
    (hsome : ∀ acc s e, f s = some e → g acc s = acc ++ [e]) :
    ∀ (ss : List α) (acc : List β), ss.foldl g acc = acc ++ ss.filterMap f := by
  intro ss
  induction ss with
  | nil => intro acc; simp
  | cons s rest ih =>
    intro acc
    cases hfs : f s with
    | none =>
      rw [List.foldl_cons, hnone acc s hfs, ih, List.filterMap_cons_none hfs]
    | some e =>
      rw [List.foldl_cons, hsome acc s e hfs, ih, List.filterMap_cons_some hfs]
      simp

/-- C1: the aggregation loop is total — it never raises — and equals the
filter-map of the per-source outcome: a failed source (exception, fetch
error, non-200 status, or empty model reply, all of which make `sourceEntry`
`none`) contributes nothing and never stops later sources; in particular for
`[A, B]` with `A` failing and `B` succeeding the result is exactly `B`'s
entry (app.py lines 36-101). -/
theorem per_source_failure_isolation (pt : String) (ch : List ChatTurn)
    (fo : String → FetchOutcome) :
    (∀ sources : List SrcSpec,
      process_pdf_with_gemini pt ch fo sources =
        sources.filterMap (sourceEntry pt ch fo)) ∧
    ∀ (A B : SrcSpec) (e : ResponseEntry),
      sourceEntry pt ch fo A = none →
      sourceEntry pt ch fo B = some e →
      process_pdf_with_gemini pt ch fo [A, B] = [e] := by
  have hgen : ∀ sources : List SrcSpec,
      process_pdf_with_gemini pt ch fo sources =
        sources.filterMap (sourceEntry pt ch fo) := by
    intro ss
    unfold process_pdf_with_gemini
    exact (foldl_collect (sourceEntry pt ch fo) _
      (fun acc s h => by simp [h]) (fun acc s e h => by simp [h])
      ss []).trans (List.nil_append _)
  refine ⟨hgen, ?_⟩
  intro A B e hA hB
  rw [hgen, List.filterMap_cons_none hA, List.filterMap_cons_some hB]
  rfl

/-- Witness for C1: a URL source whose fetch raises, followed by a file
source with a non-empty model reply — exactly the file entry results. -/
theorem per_source_failure_isolation_witness :
    sourceEntry "q" [] (fun _ => FetchOutcome.raises)
      (SrcSpec.url "http://a.com/x") = none ∧
    sourceEntry "q" [] (fun _ => FetchOutcome.raises)
      (SrcSpec.file ⟨"b.pdf", true, fun _ => Except.ok (some "R")⟩) =
        some ⟨"b.pdf", "R"⟩ ∧
    process_pdf_with_gemini "q" [] (fun _ => FetchOutcome.raises)
      [SrcSpec.url "http://a.com/x",
       SrcSpec.file ⟨"b.pdf", true, fun _ => Except.ok (some "R")⟩] =
      [⟨"b.pdf", "R"⟩] :=
  ⟨rfl, rfl,
   (per_source_failure_isolation "q" [] (fun _ => FetchOutcome.raises)).2
     (SrcSpec.url "http://a.com/x")
     (SrcSpec.file ⟨"b.pdf", true, fun _ => Except.ok (some "R")⟩)
     ⟨"b.pdf", "R"⟩ rfl rfl⟩

/-- C4: when no source yields model output — in particular with zero sources
— `get_gemini_response` returns the literal user-facing sentinel string, not
an empty collection, and (being a total function of its oracles) does not
raise (app.py lines 178-179). -/
theorem no_documents_sentinel (pt : String) (ch : List ChatTurn)
    (fo : String → FetchOutcome) (fd : List FileDoc) (ud : List String)
    (hfile : process_pdf_with_gemini pt ch fo (fd.map SrcSpec.file) = [])
    (hurl : process_pdf_with_gemini pt ch fo
      ((validUrls ud).map SrcSpec.url) = []) :
    get_gemini_response pt fd ud ch fo =
      "Error: No se proporcionaron documentos. Por favor, sube un archivo PDF o proporciona una URL de PDF." := by
  simp [get_gemini_response, hfile, hurl]

/-- Witness for C4 at zero sources. -/
theorem no_documents_sentinel_witness :
    get_gemini_response "q" [] [] [] (fun _ => FetchOutcome.raises) =
      "Error: No se proporcionaron documentos. Por favor, sube un archivo PDF o proporciona una URL de PDF." :=
  no_documents_sentinel "q" [] (fun _ => FetchOutcome.raises) [] [] rfl rfl

/-- C5: the extractor returns the parse of the first labeled fence's interior
when one matches, the parse of the whole text when none does, and `none` —
never an exception — on parse failure; the three concrete cases of the claim
evaluate as stated (app.py lines 340-353). -/
theorem extract_json_cases :
    (∀ t : String, fenceInterior t.toList = none →
      extract_json_from_markdown t = json_loads t) ∧
    (∀ (t : String) (inner : List Char), fenceInterior t.toList = some inner →
      extract_json_from_markdown t = json_loads (String.mk inner)) ∧
    extract_json_from_markdown "```json\n\x7b\"a\": \"1\"\x7d\n```" =
      some (Json.obj [("a", Json.str "1")]) ∧
    extract_json_from_markdown "\x7b\"a\": \"1\"\x7d" =
      some (Json.obj [("a", Json.str "1")]) ∧
    extract_json_from_markdown "esto no es JSON" = none := by
  refine ⟨?_, ?_, rfl, rfl, rfl⟩
  · intro t h
    have h2 : fenceInterior t.data = none := h
    simp [extract_json_from_markdown, h2]
  · intro t inner h
    have h2 : fenceInterior t.data = some inner := h
    simp [extract_json_from_markdown, h2]

/-- Witness for C5 on a fence-free text. -/
theorem extract_json_cases_witness :
    fenceInterior ("sin fence".toList) = none ∧
    extract_json_from_markdown "sin fence" = json_loads "sin fence" :=
  ⟨rfl, extract_json_cases.1 "sin fence" rfl⟩

/-- Helper: a position whose character is not a backtick cannot start a
fence match. -/
theorem fenceInterior_cons_of_not_backtick (c : Char) (l : List Char)
    (hc : c ≠ backtick) : fenceInterior (c :: l) = fenceInterior l := by
  have hne : (backtick == c) = false := beq_eq_false_iff_ne.mpr (Ne.symm hc)
  have hnp : fenceOpen.isPrefixOf (c :: l) = false := by
    have hstep : fenceOpen.isPrefixOf (c :: l) =
        (backtick == c &&
          List.isPrefixOf [backtick, backtick, 'j', 's', 'o', 'n', '\n'] l) := rfl
    rw [hstep, hne]
    simp
  simp [fenceInterior, hnp]

/-- Helper: scanning skips a backtick-free portion entirely. -/
theorem fenceInterior_append_of_no_backtick (pre l : List Char)
    (hpre : ∀ c ∈ pre, c ≠ backtick) :
    fenceInterior (pre ++ l) = fenceInterior l := by
  induction pre with
  | nil => rfl
  | cons c cs ih =>
    rw [List.cons_append,
      fenceInterior_cons_of_not_backtick c _ (hpre c (List.mem_cons_self _ _))]
    exact ih (fun d hd => hpre d (List.mem_cons_of_mem _ hd))

/-- Helper: when the pattern itself is the head, `breakOnSub` splits there. -/
theorem breakOnSub_of_isPrefixOf (pat l : List Char) (hp : pat ≠ [])
    (hpre : pat.isPrefixOf l = true) :
    breakOnSub pat l = some ([], l.drop pat.length) := by
  cases l with
  | nil =>
    cases pat with
    | nil => exact absurd rfl hp
    | cons p ps => simp [List.isPrefixOf] at hpre
  | cons c rest => simp [breakOnSub, hpre]

/-- Helper: the three-backtick tail of the closing token never matches inside
a backtick-free segment followed by the closing token. -/
theorem three_backticks_not_prefix (l post2 : List Char)
    (h : ∀ c ∈ l, c ≠ backtick) :
    List.isPrefixOf [backtick, backtick, backtick]
      (l ++ (fenceClose ++ post2)) = false := by
  cases l with
  | nil =>
    have hb : (backtick == '\n') = false := by decide
    simp [fenceClose, List.isPrefixOf, hb]
  | cons d ds =>
    have hd : (backtick == d) = false :=
      beq_eq_false_iff_ne.mpr (Ne.symm (h d (List.mem_cons_self _ _)))
    simp [List.isPrefixOf, hd]

/-- Helper: the first occurrence of the closing token after a backtick-free
interior is the explicit one. -/
theorem breakOnSub_fenceClose (inner post : List Char)
    (hin : ∀ c ∈ inner, c ≠ backtick) :
    breakOnSub fenceClose (inner ++ (fenceClose ++ post)) = some (inner, post) := by
  induction inner with
  | nil =>
    have hpre : fenceClose.isPrefixOf (fenceClose ++ post) = true :=
      List.isPrefixOf_iff_prefix.mpr (List.prefix_append _ _)
    rw [List.nil_append,
      breakOnSub_of_isPrefixOf fenceClose _ (by decide) hpre]
    simp [List.drop_left]
  | cons c cs ih =>
    have h3 := three_backticks_not_prefix cs post
      (fun d hd => hin d (List.mem_cons_of_mem _ hd))
    have hnp : fenceClose.isPrefixOf (c :: (cs ++ (fenceClose ++ post))) = false := by
      have hstep : fenceClose.isPrefixOf (c :: (cs ++ (fenceClose ++ post))) =
          ('\n' == c && List.isPrefixOf [backtick, backtick, backtick]
            (cs ++ (fenceClose ++ post))) := rfl
      rw [hstep, h3]
      simp
    rw [List.cons_append]
    simp only [breakOnSub, hnp, Bool.false_eq_true, if_false,
      ih (fun d hd => hin d (List.mem_cons_of_mem _ hd))]

/-- Helper: when the opening token matches at the head and a closing token
occurs, the scan returns the non-greedy group right there. -/
theorem fenceInterior_of_open (l inner post2 : List Char)
    (hpre : fenceOpen.isPrefixOf l = true)
    (hbreak : breakOnSub fenceClose (l.drop fenceOpen.length) =
      some (inner, post2)) :
    fenceInterior l = some inner := by
  cases l with
  | nil => simp [fenceOpen, List.isPrefixOf] at hpre
  | cons c rest => simp [fenceInterior, hpre, hbreak]

/-- Helper: leftmost-match semantics — with a backtick-free prefix and a
backtick-free interior, the scan finds exactly this first fence, whatever
follows (later fences included). -/
theorem fenceInterior_first_fence (pre inner post : List Char)
    (hpre : ∀ c ∈ pre, c ≠ backtick) (hin : ∀ c ∈ inner, c ≠ backtick) :
    fenceInterior (pre ++ (fenceOpen ++ (inner ++ (fenceClose ++ post)))) =
      some inner := by
  rw [fenceInterior_append_of_no_backtick pre _ hpre]
  refine fenceInterior_of_open _ inner post ?_ ?_
  · exact List.isPrefixOf_iff_prefix.mpr (List.prefix_append _ _)
  · rw [List.drop_left]
    exact breakOnSub_fenceClose inner post hin

/-- C10: when a labeled fence matches, the extractor's result is exactly the
parse of that (first) interior — a failing interior yields `none` with no
whole-text fallback; the first-fence structure holds for any prefix, interior
and suffix, and the two concrete multi-fence cases evaluate accordingly
(app.py lines 340-353). -/
theorem extract_json_first_fence_only :
    (∀ (t : String) (inner : List Char),
      fenceInterior t.toList = some inner →
      json_loads (String.mk inner) = none →
      extract_json_from_markdown t = none) ∧
    (∀ pre inner post : List Char,
      (∀ c ∈ pre, c ≠ backtick) → (∀ c ∈ inner, c ≠ backtick) →
      fenceInterior (pre ++ (fenceOpen ++ (inner ++ (fenceClose ++ post)))) =
        some inner) ∧
    extract_json_from_markdown "```json\nnope\n```\n```json\n\x7b\x7d\n```" =
      none ∧
    extract_json_from_markdown "```json\n1\n```\n```json\n2\n```" =
      some (Json.num "1") := by
  refine ⟨?_, fenceInterior_first_fence, rfl, rfl⟩
  intro t inner h hl
  have h2 : fenceInterior t.data = some inner := h
  simp [extract_json_from_markdown, h2, hl]

/-- Witness for C10: a concrete fence whose interior fails to parse yields
`none`, and the first-fence structure at a concrete prefix/interior/suffix. -/
theorem extract_json_first_fence_only_witness :
    extract_json_from_markdown "```json\nnope\n```" = none ∧
    fenceInterior
      (['x'] ++ (fenceOpen ++ (['1'] ++ (fenceClose ++ ['y'])))) = some ['1'] :=
  ⟨extract_json_first_fence_only.1 "```json\nnope\n```" "nope".toList rfl rfl,
   extract_json_first_fence_only.2.1 ['x'] ['1'] ['y'] (by decide) (by decide)⟩

/-- Helper: an ASCII letter is above the C0-control/space range. -/
theorem alpha_gt_32 (a : Char) (h : a.isAlpha = true) : ¬ (a.toNat ≤ 32) := by
  intro hle
  simp [Char.isAlpha, Char.isUpper, Char.isLower, UInt32.le_def,
    BitVec.le_def] at h
  simp [Char.toNat, UInt32.toNat] at hle
  rcases h with ⟨h1, _⟩ | ⟨h1, _⟩ <;> omega

/-- Helper: a scheme character is neither the scheme delimiter nor one of the
removed unsafe bytes. -/
theorem isSchemeChar_ne (c : Char) (h : isSchemeChar c = true) :
    c ≠ ':' ∧ c ≠ '\t' ∧ c ≠ '\r' ∧ c ≠ '\n' := by
  refine ⟨fun hc => ?_, fun hc => ?_, fun hc => ?_, fun hc => ?_⟩ <;>
    · subst hc
      exact absurd h (by decide)

/-- Helper: a list avoiding a character does not contain it. -/
theorem contains_eq_false_of_ne (l : List Char) (a : Char)
    (h : ∀ c ∈ l, c ≠ a) : l.contains a = false := by
  simp [List.contains]
  exact fun hc => h a hc rfl

/-- Helper: the first colon after a colon-free prefix is the explicit one. -/
theorem splitFirstColon_append (pre tail : List Char)
    (h : ∀ c ∈ pre, c ≠ ':') :
    splitFirstColon (pre ++ ':' :: tail) = some (pre, tail) := by
  induction pre with
  | nil => simp [splitFirstColon]
  | cons c cs ih =>
    have hc : ¬ (c = ':') := h c (List.mem_cons_self _ _)
    simp [splitFirstColon, hc,
      ih (fun d hd => h d (List.mem_cons_of_mem _ hd))]

/-- Helper: `takeWhile` over a satisfying block followed by a failing
element returns exactly the block. -/
theorem takeWhile_append_stop (q : Char → Bool) (xs : List Char) (y : Char)
    (ys : List Char) (hxs : ∀ c ∈ xs, q c = true) (hy : q y = false) :
    (xs ++ y :: ys).takeWhile q = xs := by
  induction xs with
  | nil => simp [List.takeWhile_cons, hy]
  | cons x xt ih =>
    simp [List.takeWhile_cons, hxs x (List.mem_cons_self _ _),
      ih (fun c hc => hxs c (List.mem_cons_of_mem _ hc))]

/-- Helper: an all-ASCII list never trips the NFKC netloc check, whose
rejected characters all lie above U+2000. -/
theorem checknetlocOk_of_ascii (l : List Char) (h : ∀ c ∈ l, c.toNat ≤ 127) :
    checknetlocOk l = true := by
  unfold checknetlocOk
  simp only [Bool.not_eq_true', List.any_eq_false]
  intro c hc
  have hcle := h c hc
  simp [badNetlocCodes, List.contains]
  omega

/-- Helper: every well-formed `scheme://host/...` string validates — the
scheme is any ASCII-letter-led run of scheme characters, the host any
non-empty ASCII run free of delimiters, brackets and removed bytes (so the
bracketed-host and NFKC checks pass), and the remainder is arbitrary. -/
theorem is_valid_url_family (a : Char) (sch host rest : List Char)
    (ha : a.isAlpha = true)
    (hsch : ∀ c ∈ a :: sch, isSchemeChar c = true)
    (hhost_ne : host ≠ [])
    (hhost : ∀ c ∈ host, netlocEnd c = false ∧ c ≠ '[' ∧ c ≠ ']' ∧
      c ≠ '\t' ∧ c ≠ '\r' ∧ c ≠ '\n')
    (hascii : ∀ c ∈ host, c.toNat ≤ 127) :
    is_valid_url (String.mk
      (a :: (sch ++ (':' :: '/' :: '/' :: (host ++ '/' :: rest))))) = true := by
  have h32 := alpha_gt_32 a ha
  have hp1 : ∀ c ∈ a :: sch, keepUrlChar c = true := by
    intro c hc
    obtain ⟨-, h1, h2, h3⟩ := isSchemeChar_ne c (hsch c hc)
    simp [keepUrlChar, h1, h2, h3]
  have hp2 : ∀ c ∈ host, keepUrlChar c = true := by
    intro c hc
    obtain ⟨-, -, -, h1, h2, h3⟩ := hhost c hc
    simp [keepUrlChar, h1, h2, h3]
  have hdrop : List.dropWhile isC0ControlOrSpace
      (a :: (sch ++ (':' :: '/' :: '/' :: (host ++ '/' :: rest)))) =
      (a :: (sch ++ (':' :: '/' :: '/' :: (host ++ '/' :: rest)))) := by
    simp [List.dropWhile_cons, isC0ControlOrSpace, h32]
  have hfilter : List.filter keepUrlChar
      (a :: (sch ++ (':' :: '/' :: '/' :: (host ++ '/' :: rest)))) =
      (a :: (sch ++ (':' :: '/' :: '/' :: (host ++ '/' ::
        rest.filter keepUrlChar)))) := by
    rw [List.filter_cons_of_pos (hp1 a (List.mem_cons_self _ _)),
      List.filter_append,
      List.filter_eq_self.mpr (fun c hc => hp1 c (List.mem_cons_of_mem _ hc)),
      List.filter_cons_of_pos (by decide),
      List.filter_cons_of_pos (by decide),
      List.filter_cons_of_pos (by decide),
      List.filter_append,
      List.filter_eq_self.mpr hp2,
      List.filter_cons_of_pos (by decide)]
  have hcolon : ∀ c ∈ a :: sch, c ≠ ':' :=
    fun c hc => (isSchemeChar_ne c (hsch c hc)).1
  have e1 : splitFirstColon
      (a :: (sch ++ (':' :: '/' :: '/' :: (host ++ '/' ::
        rest.filter keepUrlChar)))) =
      some (a :: sch, '/' :: '/' :: (host ++ '/' :: rest.filter keepUrlChar)) :=
    splitFirstColon_append (a :: sch) _ hcolon
  have hall : (a :: sch).all isSchemeChar = true := List.all_eq_true.mpr hsch
  have hsch_split : splitScheme
      (a :: (sch ++ (':' :: '/' :: '/' :: (host ++ '/' ::
        rest.filter keepUrlChar)))) =
      ((a :: sch).map Char.toLower,
        '/' :: '/' :: (host ++ '/' :: rest.filter keepUrlChar)) := by
    unfold splitScheme
    rw [e1]
    simp [ha, hall]
  have hnetloc : List.takeWhile notNetlocEnd
      (host ++ '/' :: rest.filter keepUrlChar) = host :=
    takeWhile_append_stop _ _ _ _
      (fun c hc => by simp [notNetlocEnd, (hhost c hc).1]) (by decide)
  have hlb : '[' ∉ host := fun hc => (hhost _ hc).2.1 rfl
  have hrb : ']' ∉ host := fun hc => (hhost _ hc).2.2.1 rfl
  have hsplit : urlsplitModel
      (a :: (sch ++ (':' :: '/' :: '/' :: (host ++ '/' :: rest)))) =
      Except.ok ⟨(a :: sch).map Char.toLower, host⟩ := by
    simp only [urlsplitModel]
    rw [hdrop, hfilter, hsch_split]
    simp [hnetloc, hlb, hrb, checknetlocOk_of_ascii host hascii]
  obtain ⟨hh, hT, rfl⟩ := List.exists_cons_of_ne_nil hhost_ne
  simp only [List.cons_append] at hsplit
  simp [is_valid_url, hsplit]

/-- C6: `is_valid_url` is true exactly when the parse succeeds with a
non-empty scheme and a non-empty netloc — so every string lacking a scheme
or host validates false — and every well-formed `scheme://host/...` string
(ASCII delimiter-free host) validates true; hosts the parser rejects with a
`ValueError` (an NFKC-unsafe character, an invalid bracketed host) validate
false, while a valid bracketed IPv6 host validates true
(app.py lines 21-27). -/
theorem is_valid_url_spec :
    (∀ s : String, is_valid_url s = true ↔
      ∃ parts, urlsplitModel s.toList = Except.ok parts ∧
        parts.scheme ≠ [] ∧ parts.netloc ≠ []) ∧
    (∀ (a : Char) (sch host rest : List Char),
      a.isAlpha = true →
      (∀ c ∈ a :: sch, isSchemeChar c = true) →
      host ≠ [] →
      (∀ c ∈ host, netlocEnd c = false ∧ c ≠ '[' ∧ c ≠ ']' ∧
        c ≠ '\t' ∧ c ≠ '\r' ∧ c ≠ '\n') →
      (∀ c ∈ host, c.toNat ≤ 127) →
      is_valid_url (String.mk
        (a :: (sch ++ (':' :: '/' :: '/' :: (host ++ '/' :: rest))))) = true) ∧
    is_valid_url "http://℀/x" = false ∧
    is_valid_url "http://[zz]/x" = false ∧
    is_valid_url "http://[::1]/x" = true := by
  refine ⟨?_, is_valid_url_family, rfl, rfl, rfl⟩
  intro s
  unfold is_valid_url
  cases hm : urlsplitModel s.toList with
  | error e => simp
  | ok r => simp [List.isEmpty_iff]

/-- Witness for C6 at a concrete well-formed URL. -/
theorem is_valid_url_spec_witness :
    is_valid_url "http://example.com/a" = true :=
  is_valid_url_spec.2.1 'h' "ttp".toList "example.com".toList "a".toList
    (by decide) (by decide) (by decide) (by decide) (by decide)

/-- Helper: a non-empty string is not `isEmpty`. -/
theorem isEmpty_false_of_ne (s : String) (h : s ≠ "") : s.isEmpty = false := by
  cases hb : s.isEmpty
  · rfl
  · exact absurd ((String.isEmpty_iff s).mp hb) h

/-- Helper: an `isEmpty = false` string is non-empty. -/
theorem ne_empty_of_isEmpty_false (s : String) (h : s.isEmpty = false) :
    s ≠ "" := by
  intro heq
  subst heq
  exact absurd h (by decide)

/-- C9: the pipeline processes exactly the URL entries that are non-empty
after stripping and satisfy `is_valid_url` — membership in the processed
list is characterised without any mention of `is_pdf_url`, whose check is
commented out; in particular a valid URL with no `.pdf` suffix is kept
(app.py lines 165-176). -/
theorem url_filter_spec :
    (∀ (urls : List String) (v : String),
      v ∈ validUrls urls ↔
        ∃ u ∈ urls, pyStrip u = v ∧ v ≠ "" ∧ is_valid_url v = true) ∧
    (∀ u : String, pyStrip u ≠ "" → is_valid_url (pyStrip u) = true →
      is_pdf_url (pyStrip u) = false → validUrls [u] = [pyStrip u]) := by
  constructor
  · intro urls v
    simp only [validUrls, List.mem_filterMap]
    constructor
    · rintro ⟨u, hu, hif⟩
      unfold stripIfValid at hif
      by_cases hc : (!(pyStrip u).isEmpty && is_valid_url (pyStrip u)) = true
      · rw [if_pos hc] at hif
        obtain rfl := Option.some.inj hif
        rw [Bool.and_eq_true] at hc
        obtain ⟨h1, h2⟩ := hc
        have h1f : (pyStrip u).isEmpty = false := by
          cases hb : (pyStrip u).isEmpty
          · rfl
          · rw [hb] at h1
            exact absurd h1 (by decide)
        exact ⟨u, hu, rfl, ne_empty_of_isEmpty_false _ h1f, h2⟩
      · rw [if_neg hc] at hif
        cases hif
    · rintro ⟨u, hu, hstrip, hne, hvalid⟩
      refine ⟨u, hu, ?_⟩
      have hc : (!(pyStrip u).isEmpty && is_valid_url (pyStrip u)) = true := by
        rw [hstrip]
        simp [hvalid, isEmpty_false_of_ne _ hne]
      unfold stripIfValid
      rw [if_pos hc, hstrip]
  · intro u h1 h2 h3
    have hc : (!(pyStrip u).isEmpty && is_valid_url (pyStrip u)) = true := by
      simp [h2, isEmpty_false_of_ne _ h1]
    have hf : stripIfValid u = some (pyStrip u) := by
      unfold stripIfValid
      exact if_pos hc
    unfold validUrls
    rw [List.filterMap_cons_some hf]
    simp

/-- Witness for C9: a whitespace-padded valid URL without a `.pdf` suffix is
stripped and kept. -/
theorem url_filter_spec_witness :
    pyStrip " http://example.com/doc " = "http://example.com/doc" ∧
    is_pdf_url "http://example.com/doc" = false ∧
    validUrls [" http://example.com/doc "] = ["http://example.com/doc"] :=
  ⟨rfl, rfl, by
    have h := url_filter_spec.2 " http://example.com/doc "
      (by decide) (by decide) (by decide)
    exact h.trans rfl⟩

end Licitaciones
